import Mathlib

/-!
A shallow embedding of yorkie's `server/backend/housekeeping` package
(`housekeeping.go`): the housekeeping service that periodically deactivates
idle clients and hard-deletes soft-deleted documents, paging through tenants
("projects") with a cyclic cursor under a distributed named lock.

External collaborators (database, coordinator/locker, the `clients.Deactivate`
action) are modelled as oracles; every external call the Go code makes is
additionally recorded, in program order, in an event trace, so that statements
about side-effect ordering, lock discipline and logging can be proved.
-/

deriving instance DecidableEq for Except

abbrev ID := String
abbrev Err := String
abbrev Duration := Nat

/-- Constant `database.DefaultProjectID`, the sentinel "start of cycle" cursor value. -/
def DefaultProjectID : ID := "000000000000000000000000"

def deactivateCandidatesKey : String := "housekeeping/deactivateCandidates"

def documentHardDeletionLockKey : String := "housekeeping/DocumentHardDeletionLock"

structure ProjectInfo where
  id : ID
  deriving DecidableEq, Repr

structure ClientInfo where
  refKey : Nat
  deriving DecidableEq, Repr

structure DocInfo where
  docKey : Nat
  deriving DecidableEq, Repr

/-- One recorded external call (or log line) of a sweep, in program order. -/
inductive Event where
  | newLocker (key : String) (ok : Bool)
  | lock (key : String) (ok : Bool)
  | unlock (key : String) (ok : Bool)
  | logError (e : Err)
  | logInfo (candidates : Nat) (effect : Nat)
  | findProjects (fetchSize : Nat) (afterID : ID) (ok : Bool)
  | findClientCands (project : ID) (limit : Nat) (ok : Bool)
  | deactivateClient (c : ClientInfo) (ok : Bool)
  | findDocCands (project : ID) (limit : Nat) (grace : Duration) (ok : Bool)
  | deleteDocs (batch : List DocInfo) (ok : Bool)
  deriving DecidableEq, Repr

/-- Is this event a store read or a store/candidate mutation? -/
def Event.isStore : Event → Bool
  | .findProjects _ _ _ => true
  | .findClientCands _ _ _ => true
  | .deactivateClient _ _ => true
  | .findDocCands _ _ _ _ => true
  | .deleteDocs _ _ => true
  | _ => false

/-- Is this event an application of the client-deactivation action? -/
def Event.isDeact : Event → Bool
  | .deactivateClient _ _ => true
  | _ => false

def Event.isUnlock : Event → Bool
  | .unlock _ _ => true
  | _ => false

/-- Oracle for `database.Database`: each method either fails with an error or
returns its Go result. `deactivate` stands for the `clients.Deactivate` action
invoked per candidate. -/
structure DB where
  findNextNCyclingProjectInfos : Nat → ID → Except Err (List ProjectInfo)
  findDeactivateCandidatesPerProject : ProjectInfo → Nat → Except Err (List ClientInfo)
  findDocumentHardDeletionCandidatesPerProject :
    ProjectInfo → Nat → Duration → Except Err (List DocInfo)
  deleteDocument : List DocInfo → Except Err Nat
  deactivate : ClientInfo → Option Err

/-- Oracle for `sync.Coordinator` and the locker it creates: `newLocker key`
is `none` when locker creation succeeds, `lockErr`/`unlockErr` are the
outcomes of `locker.Lock`/`locker.Unlock` for this invocation. -/
structure Coordinator where
  newLocker : String → Option Err
  lockErr : Option Err
  unlockErr : Option Err

/-- The `Housekeeping` service struct (its oracle-backed fields). -/
structure Housekeeping where
  db : DB
  coordinator : Coordinator
  intervalDeactivateCandidates : Duration
  intervalDeleteDocuments : Duration
  documentHardDeletionGracefulPeriod : Duration
  clientDeactivationCandidateLimitPerProject : Nat
  DocumentHardDeletionCandidateLimitPerProject : Nat
  projectFetchSize : Nat

/-- The per-project candidate loop of `FindDeactivateCandidates`: one
`FindDeactivateCandidatesPerProject` call per project, appending results,
aborting on the first error. Returns (candidates, error, trace). -/
def findClientsLoop (db : DB) (limit : Nat) :
    List ProjectInfo → List ClientInfo × Option Err × List Event
  | [] => ([], none, [])
  | p :: ps =>
    match db.findDeactivateCandidatesPerProject p limit with
    | .error e => ([], some e, [.findClientCands p.id limit false])
    | .ok infos =>
      let r := findClientsLoop db limit ps
      (infos ++ r.1, r.2.1, .findClientCands p.id limit true :: r.2.2)

/-- The per-project candidate loop of `FindDocumentHardDeletionCandidates`. -/
def findDocsLoop (db : DB) (limit : Nat) (grace : Duration) :
    List ProjectInfo → List DocInfo × Option Err × List Event
  | [] => ([], none, [])
  | p :: ps =>
    match db.findDocumentHardDeletionCandidatesPerProject p limit grace with
    | .error e => ([], some e, [.findDocCands p.id limit grace false])
    | .ok infos =>
      let r := findDocsLoop db limit grace ps
      (infos ++ r.1, r.2.1, .findDocCands p.id limit grace true :: r.2.2)

/-- The `topProjectID` computation shared by both find functions: reset to the
sentinel when the page is short, else the id of the last project fetched.
(When `projects` is empty and `fetchSize = 0` the Go code indexes
`projects[len(projects)-1]` and would panic; that branch is unreachable for
`fetchSize > 0` and is mapped to the sentinel here.) -/
def topProject (projects : List ProjectInfo) (fetchSize : Nat) : ID :=
  if projects.length < fetchSize then DefaultProjectID
  else
    match projects.getLast? with
    | some p => p.id
    | none => DefaultProjectID

/-- Method `(*Housekeeping).FindDeactivateCandidates`: page projects cyclically from
`lastProjectID`, collect up to `limit` deactivation candidates per project.
Returns ((topProjectID, candidates, error), trace); on error the Go code
returns `(database.DefaultProjectID, nil, err)`. -/
def Housekeeping.FindDeactivateCandidates (h : Housekeeping)
    (limit fetchSize : Nat) (lastProjectID : ID) :
    (ID × List ClientInfo × Option Err) × List Event :=
  match h.db.findNextNCyclingProjectInfos fetchSize lastProjectID with
  | .error e => ((DefaultProjectID, [], some e), [.findProjects fetchSize lastProjectID false])
  | .ok projects =>
    let r := findClientsLoop h.db limit projects
    match r.2.1 with
    | some e =>
      ((DefaultProjectID, [], some e), .findProjects fetchSize lastProjectID true :: r.2.2)
    | none =>
      ((topProject projects fetchSize, r.1, none),
        .findProjects fetchSize lastProjectID true :: r.2.2)

/-- Method `(*Housekeeping).FindDocumentHardDeletionCandidates`. -/
def Housekeeping.FindDocumentHardDeletionCandidates (h : Housekeeping)
    (limit fetchSize : Nat) (deletedAfterTime : Duration) (lastProjectID : ID) :
    (ID × List DocInfo × Option Err) × List Event :=
  match h.db.findNextNCyclingProjectInfos fetchSize lastProjectID with
  | .error e => ((DefaultProjectID, [], some e), [.findProjects fetchSize lastProjectID false])
  | .ok projects =>
    let r := findDocsLoop h.db limit deletedAfterTime projects
    match r.2.1 with
    | some e =>
      ((DefaultProjectID, [], some e), .findProjects fetchSize lastProjectID true :: r.2.2)
    | none =>
      ((topProject projects fetchSize, r.1, none),
        .findProjects fetchSize lastProjectID true :: r.2.2)

/-- The per-candidate action loop of `deactivateCandidates`: for each
candidate in order, call `clients.Deactivate`; the first failure returns that
error immediately. Returns (deactivatedCount, error, trace): the count is the
number of successful actions accumulated so far. -/
def deactivateLoopBody (db : DB) : List ClientInfo → Nat × Option Err × List Event
  | [] => (0, none, [])
  | c :: cs =>
    match db.deactivate c with
    | some e => (0, some e, [.deactivateClient c false])
    | none =>
      let r := deactivateLoopBody db cs
      (r.1 + 1, r.2.1, .deactivateClient c true :: r.2.2)

/-- Events emitted by the deferred `locker.Unlock`: a failed release is only
logged. -/
def unlockEvents (co : Coordinator) (key : String) : List Event :=
  match co.unlockErr with
  | some e => [.unlock key false, .logError e]
  | none => [.unlock key true]

/-- Method `(*Housekeeping).deactivateCandidates`: one client-deactivation sweep.
Returns ((cursor, error), trace). Mirrors the Go control flow: create locker,
lock, defer unlock, find candidates, deactivate each in order, log on a
non-empty batch; every error path returns `database.DefaultProjectID`. -/
def Housekeeping.deactivateCandidates (h : Housekeeping)
    (housekeepingLastProjectID : ID) : (ID × Option Err) × List Event :=
  match h.coordinator.newLocker deactivateCandidatesKey with
  | some e => ((DefaultProjectID, some e), [.newLocker deactivateCandidatesKey false])
  | none =>
    match h.coordinator.lockErr with
    | some e =>
      ((DefaultProjectID, some e),
        [.newLocker deactivateCandidatesKey true, .lock deactivateCandidatesKey false])
    | none =>
      let pre : List Event :=
        [.newLocker deactivateCandidatesKey true, .lock deactivateCandidatesKey true]
      let post := unlockEvents h.coordinator deactivateCandidatesKey
      let f := h.FindDeactivateCandidates
        h.clientDeactivationCandidateLimitPerProject h.projectFetchSize
        housekeepingLastProjectID
      match f.1.2.2 with
      | some e => ((DefaultProjectID, some e), pre ++ f.2 ++ post)
      | none =>
        let d := deactivateLoopBody h.db f.1.2.1
        match d.2.1 with
        | some e => ((DefaultProjectID, some e), pre ++ f.2 ++ d.2.2 ++ post)
        | none =>
          let logEvs : List Event :=
            if f.1.2.1.length > 0 then [.logInfo f.1.2.1.length d.1] else []
          ((f.1.1, none), pre ++ f.2 ++ d.2.2 ++ logEvs ++ post)

/-- Method `(*Housekeeping).DeleteDocument`: one document-hard-deletion sweep.
Returns ((cursor, error), trace). The deletion action is a single batch store
call `database.DeleteDocument(candidates)` reporting a deleted count. -/
def Housekeeping.DeleteDocument (h : Housekeeping)
    (housekeepingLastProjectID : ID) : (ID × Option Err) × List Event :=
  match h.coordinator.newLocker documentHardDeletionLockKey with
  | some e => ((DefaultProjectID, some e), [.newLocker documentHardDeletionLockKey false])
  | none =>
    match h.coordinator.lockErr with
    | some e =>
      ((DefaultProjectID, some e),
        [.newLocker documentHardDeletionLockKey true, .lock documentHardDeletionLockKey false])
    | none =>
      let pre : List Event :=
        [.newLocker documentHardDeletionLockKey true, .lock documentHardDeletionLockKey true]
      let post := unlockEvents h.coordinator documentHardDeletionLockKey
      let f := h.FindDocumentHardDeletionCandidates
        h.DocumentHardDeletionCandidateLimitPerProject h.projectFetchSize
        h.documentHardDeletionGracefulPeriod housekeepingLastProjectID
      match f.1.2.2 with
      | some e => ((DefaultProjectID, some e), pre ++ f.2 ++ post)
      | none =>
        match h.db.deleteDocument f.1.2.1 with
        | .error e =>
          ((DefaultProjectID, some e), pre ++ f.2 ++ [.deleteDocs f.1.2.1 false] ++ post)
        | .ok deletedDocumentsCount =>
          let logEvs : List Event :=
            if f.1.2.1.length > 0 then [.logInfo f.1.2.1.length deletedDocumentsCount] else []
          ((f.1.1, none), pre ++ f.2 ++ [.deleteDocs f.1.2.1 true] ++ logEvs ++ post)

/-- The sweep invoked by `AttachDeactivateCandidates` each iteration. -/
def Housekeeping.deactivateSweep (h : Housekeeping) (cursor : ID) : ID × Option Err :=
  (h.deactivateCandidates cursor).1

/-- The sweep invoked by `AttachDocumentHardDeletion` each iteration. -/
def Housekeeping.deleteSweep (h : Housekeeping) (cursor : ID) : ID × Option Err :=
  (h.DeleteDocument cursor).1

/-- The shared cancellable context of the service: `h.ctx`, cancelled by
`Stop`. -/
structure HContext where
  done : Bool
  deriving DecidableEq, Repr

/-- Method `(*Housekeeping).Stop`: cancels the shared context. -/
def Stop (_ : HContext) : HContext := ⟨true⟩

/-- Outcome of one iteration of a scheduler loop body
(`AttachDeactivateCandidates` / `AttachDocumentHardDeletion`): the cursor for
the next iteration, whether the interval wait ran, and whether the loop
returned (observed cancellation). -/
structure StepOutcome where
  next : ID
  waited : Bool
  halted : Bool
  deriving DecidableEq, Repr

/-- One iteration of the scheduler loop: invoke the sweep with the current
cursor; on error, log and `continue` (no wait, no cancellation check); on
success, adopt the returned cursor, then `select` between the interval timer
and `ctx.Done()` — `cancelled` is whether the cancellation signal is ready at
that wait point. -/
def AttachLoopStep (sweep : ID → ID × Option Err) (cancelled : Bool)
    (cursor : ID) : StepOutcome :=
  match sweep cursor with
  | (_, some _) => ⟨cursor, false, false⟩
  | (next, none) => if cancelled then ⟨next, false, true⟩ else ⟨next, true, false⟩

/-- One iteration of `AttachDeactivateCandidates`. -/
def Housekeeping.AttachDeactivateCandidatesStep (h : Housekeeping)
    (cancelled : Bool) (cursor : ID) : StepOutcome :=
  AttachLoopStep h.deactivateSweep cancelled cursor

/-- One iteration of `AttachDocumentHardDeletion`. -/
def Housekeeping.AttachDocumentHardDeletionStep (h : Housekeeping)
    (cancelled : Bool) (cursor : ID) : StepOutcome :=
  AttachLoopStep h.deleteSweep cancelled cursor

/-- Fuel-bounded run of a scheduler loop, with the cancellation signal in the
state it has from `Stop` onwards (`cancelled` is constant: Go context
cancellation is permanent). Returns (number of sweep invocations executed,
final cursor, whether the loop returned). A sweep is atomic here: an
invocation in flight always runs to completion before the wait point is
reached. -/
def loopRun (sweep : ID → ID × Option Err) (cancelled : Bool) :
    Nat → ID → Nat × ID × Bool
  | 0, cursor => (0, cursor, false)
  | fuel + 1, cursor =>
    match sweep cursor with
    | (_, some _) =>
      let r := loopRun sweep cancelled fuel cursor
      (r.1 + 1, r.2)
    | (next, none) =>
      if cancelled then (1, next, true)
      else
        let r := loopRun sweep cancelled fuel next
        (r.1 + 1, r.2)

/-! Concrete fixtures used to witness the theorems below: a two-project store
with three idle clients and one hard-deletion candidate, plus failing
variants of individual oracles. -/

def pA : ProjectInfo := ⟨"A"⟩

def pB : ProjectInfo := ⟨"B"⟩

def cA1 : ClientInfo := ⟨1⟩

def cA2 : ClientInfo := ⟨2⟩

def cB1 : ClientInfo := ⟨3⟩

def dA1 : DocInfo := ⟨10⟩

def dbOk : DB where
  findNextNCyclingProjectInfos := fun _ _ => .ok [pA, pB]
  findDeactivateCandidatesPerProject := fun p _ =>
    .ok (if p.id = "A" then [cA1, cA2] else [cB1])
  findDocumentHardDeletionCandidatesPerProject := fun p _ _ =>
    .ok (if p.id = "A" then [dA1] else [])
  deleteDocument := fun batch => .ok batch.length
  deactivate := fun _ => none

def coordOk : Coordinator where
  newLocker := fun _ => none
  lockErr := none
  unlockErr := none

def hkOk : Housekeeping where
  db := dbOk
  coordinator := coordOk
  intervalDeactivateCandidates := 1
  intervalDeleteDocuments := 1
  documentHardDeletionGracefulPeriod := 24
  clientDeactivationCandidateLimitPerProject := 5
  DocumentHardDeletionCandidateLimitPerProject := 5
  projectFetchSize := 2

def hkShortPage : Housekeeping := { hkOk with projectFetchSize := 3 }

def hkNLFail : Housekeeping :=
  { hkOk with coordinator := { coordOk with newLocker := fun _ => some "nlfail" } }

def hkLockFail : Housekeeping :=
  { hkOk with coordinator := { coordOk with lockErr := some "lockfail" } }

def hkUnlockFail : Housekeeping :=
  { hkOk with coordinator := { coordOk with unlockErr := some "unlockfail" } }

def hkDeactFail : Housekeeping :=
  { hkOk with db :=
    { dbOk with deactivate := fun c => if c = cA2 then some "deactfail" else none } }

def hkFindErr : Housekeeping :=
  { hkOk with db :=
    { dbOk with findNextNCyclingProjectInfos := fun _ _ => .error "finderr" } }

/-- Replace only the outcome of `locker.Unlock` of a service instance. -/
def withUnlockErr (h : Housekeeping) (u : Option Err) : Housekeeping :=
  { h with coordinator := { h.coordinator with unlockErr := u } }

/-! Trace-shape helper lemmas. -/

theorem findClientsLoop_trace_mem (db : DB) (limit : Nat) :
    ∀ ps : List ProjectInfo, ∀ ev ∈ (findClientsLoop db limit ps).2.2,
      ∃ pid ok, ev = Event.findClientCands pid limit ok := by
  intro ps
  induction ps with
  | nil => intro ev hev; simp [findClientsLoop] at hev
  | cons p ps ih =>
    intro ev hev
    simp only [findClientsLoop] at hev
    cases hdb : db.findDeactivateCandidatesPerProject p limit with
    | error e =>
      rw [hdb] at hev
      simp only [List.mem_singleton] at hev
      exact ⟨p.id, false, hev⟩
    | ok infos =>
      rw [hdb] at hev
      simp only [List.mem_cons] at hev
      rcases hev with hev | hev
      · exact ⟨p.id, true, hev⟩
      · exact ih ev hev

theorem findDocsLoop_trace_mem (db : DB) (limit : Nat) (grace : Duration) :
    ∀ ps : List ProjectInfo, ∀ ev ∈ (findDocsLoop db limit grace ps).2.2,
      ∃ pid ok, ev = Event.findDocCands pid limit grace ok := by
  intro ps
  induction ps with
  | nil => intro ev hev; simp [findDocsLoop] at hev
  | cons p ps ih =>
    intro ev hev
    simp only [findDocsLoop] at hev
    cases hdb : db.findDocumentHardDeletionCandidatesPerProject p limit grace with
    | error e =>
      rw [hdb] at hev
      simp only [List.mem_singleton] at hev
      exact ⟨p.id, false, hev⟩
    | ok infos =>
      rw [hdb] at hev
      simp only [List.mem_cons] at hev
      rcases hev with hev | hev
      · exact ⟨p.id, true, hev⟩
      · exact ih ev hev

theorem deactivateLoopBody_trace_mem (db : DB) :
    ∀ cs : List ClientInfo, ∀ ev ∈ (deactivateLoopBody db cs).2.2,
      ∃ c ok, ev = Event.deactivateClient c ok := by
  intro cs
  induction cs with
  | nil => intro ev hev; simp [deactivateLoopBody] at hev
  | cons c cs ih =>
    intro ev hev
    simp only [deactivateLoopBody] at hev
    cases hdb : db.deactivate c with
    | some e =>
      rw [hdb] at hev
      simp only [List.mem_singleton] at hev
      exact ⟨c, false, hev⟩
    | none =>
      rw [hdb] at hev
      simp only [List.mem_cons] at hev
      rcases hev with hev | hev
      · exact ⟨c, true, hev⟩
      · exact ih ev hev

theorem findClientsLoop_ok (db : DB) (limit : Nat) (f : ProjectInfo → List ClientInfo) :
    ∀ ps : List ProjectInfo,
      (∀ p ∈ ps, db.findDeactivateCandidatesPerProject p limit = .ok (f p)) →
      findClientsLoop db limit ps =
        ((ps.map f).flatten, none,
          ps.map fun p => Event.findClientCands p.id limit true) := by
  intro ps
  induction ps with
  | nil => intro _; simp [findClientsLoop]
  | cons p ps ih =>
    intro hall
    have hp := hall p (List.mem_cons_self p ps)
    have hrest := ih fun q hq => hall q (List.mem_cons_of_mem p hq)
    simp only [findClientsLoop, hp, hrest, List.map_cons, List.flatten_cons]

theorem findDocsLoop_ok (db : DB) (limit : Nat) (grace : Duration)
    (f : ProjectInfo → List DocInfo) :
    ∀ ps : List ProjectInfo,
      (∀ p ∈ ps, db.findDocumentHardDeletionCandidatesPerProject p limit grace = .ok (f p)) →
      findDocsLoop db limit grace ps =
        ((ps.map f).flatten, none,
          ps.map fun p => Event.findDocCands p.id limit grace true) := by
  intro ps
  induction ps with
  | nil => intro _; simp [findDocsLoop]
  | cons p ps ih =>
    intro hall
    have hp := hall p (List.mem_cons_self p ps)
    have hrest := ih fun q hq => hall q (List.mem_cons_of_mem p hq)
    simp only [findDocsLoop, hp, hrest, List.map_cons, List.flatten_cons]

theorem deactivateLoopBody_ok (db : DB) :
    ∀ (cs : List ClientInfo) (n : Nat) (evs : List Event),
      deactivateLoopBody db cs = (n, none, evs) →
      n = cs.length ∧ evs = cs.map fun c => Event.deactivateClient c true := by
  intro cs
  induction cs with
  | nil =>
    intro n evs hev
    simp only [deactivateLoopBody, Prod.mk.injEq, true_and] at hev
    obtain ⟨hn, hevs⟩ := hev
    subst hn
    simp [hevs.symm]
  | cons c cs ih =>
    intro n evs hev
    simp only [deactivateLoopBody] at hev
    cases hdb : db.deactivate c with
    | some e => rw [hdb] at hev; simp at hev
    | none =>
      rw [hdb] at hev
      rcases hr : deactivateLoopBody db cs with ⟨m, err, evs2⟩
      rw [hr] at hev
      simp only [Prod.mk.injEq] at hev
      obtain ⟨hn, herr, hevs⟩ := hev
      obtain ⟨hlen, htr⟩ := ih m evs2 (by rw [hr, herr])
      subst hn hevs
      simp [hlen, htr]

theorem deactivateLoopBody_partial (db : DB) (pre : List ClientInfo)
    (c : ClientInfo) (post : List ClientInfo) (e : Err)
    (hpre : ∀ x ∈ pre, db.deactivate x = none) (hc : db.deactivate c = some e) :
    deactivateLoopBody db (pre ++ c :: post) =
      (pre.length, some e,
        (pre.map fun x => Event.deactivateClient x true) ++
          [Event.deactivateClient c false]) := by
  induction pre with
  | nil => simp [deactivateLoopBody, hc]
  | cons x pre ih =>
    have hx := hpre x (List.mem_cons_self x pre)
    have hrest := ih fun y hy => hpre y (List.mem_cons_of_mem x hy)
    simp only [List.cons_append, deactivateLoopBody, hx, List.append_eq]
    rw [hrest]
    simp

def Event.isLogInfo : Event → Bool
  | .logInfo _ _ => true
  | _ => false

theorem FindDeactivateCandidates_trace_clean (h : Housekeeping) (limit fs : Nat)
    (last : ID) :
    ∀ ev ∈ (h.FindDeactivateCandidates limit fs last).2,
      ev.isDeact = false ∧ ev.isUnlock = false ∧ ev.isLogInfo = false := by
  intro ev hev
  simp only [Housekeeping.FindDeactivateCandidates] at hev
  cases hp : h.db.findNextNCyclingProjectInfos fs last with
  | error e =>
    rw [hp] at hev
    simp only [List.mem_singleton] at hev
    subst hev
    exact ⟨rfl, rfl, rfl⟩
  | ok projects =>
    simp only [hp] at hev
    have hloop : ∀ ev₁ ∈ (findClientsLoop h.db limit projects).2.2,
        ev₁.isDeact = false ∧ ev₁.isUnlock = false ∧ ev₁.isLogInfo = false := by
      intro ev₁ hev₁
      obtain ⟨pid, ok, hsh⟩ := findClientsLoop_trace_mem h.db limit projects ev₁ hev₁
      subst hsh
      exact ⟨rfl, rfl, rfl⟩
    cases herr : (findClientsLoop h.db limit projects).2.1 with
    | some e =>
      rw [herr] at hev
      simp only [List.mem_cons] at hev
      rcases hev with hev | hev
      · subst hev; exact ⟨rfl, rfl, rfl⟩
      · exact hloop ev hev
    | none =>
      rw [herr] at hev
      simp only [List.mem_cons] at hev
      rcases hev with hev | hev
      · subst hev; exact ⟨rfl, rfl, rfl⟩
      · exact hloop ev hev

theorem FindDocumentHardDeletionCandidates_trace_clean (h : Housekeeping)
    (limit fs : Nat) (grace : Duration) (last : ID) :
    ∀ ev ∈ (h.FindDocumentHardDeletionCandidates limit fs grace last).2,
      ev.isDeact = false ∧ ev.isUnlock = false ∧ ev.isLogInfo = false := by
  intro ev hev
  simp only [Housekeeping.FindDocumentHardDeletionCandidates] at hev
  cases hp : h.db.findNextNCyclingProjectInfos fs last with
  | error e =>
    rw [hp] at hev
    simp only [List.mem_singleton] at hev
    subst hev
    exact ⟨rfl, rfl, rfl⟩
  | ok projects =>
    simp only [hp] at hev
    have hloop : ∀ ev₁ ∈ (findDocsLoop h.db limit grace projects).2.2,
        ev₁.isDeact = false ∧ ev₁.isUnlock = false ∧ ev₁.isLogInfo = false := by
      intro ev₁ hev₁
      obtain ⟨pid, ok, hsh⟩ := findDocsLoop_trace_mem h.db limit grace projects ev₁ hev₁
      subst hsh
      exact ⟨rfl, rfl, rfl⟩
    cases herr : (findDocsLoop h.db limit grace projects).2.1 with
    | some e =>
      rw [herr] at hev
      simp only [List.mem_cons] at hev
      rcases hev with hev | hev
      · subst hev; exact ⟨rfl, rfl, rfl⟩
      · exact hloop ev hev
    | none =>
      rw [herr] at hev
      simp only [List.mem_cons] at hev
      rcases hev with hev | hev
      · subst hev; exact ⟨rfl, rfl, rfl⟩
      · exact hloop ev hev

theorem FindDeactivateCandidates_top (h : Housekeeping) (limit fs : Nat)
    (last : ID) (projects : List ProjectInfo) (top : ID) (cands : List ClientInfo)
    (hp : h.db.findNextNCyclingProjectInfos fs last = .ok projects)
    (hsucc : (h.FindDeactivateCandidates limit fs last).1 = (top, cands, none)) :
    top = topProject projects fs := by
  simp only [Housekeeping.FindDeactivateCandidates, hp] at hsucc
  cases herr : (findClientsLoop h.db limit projects).2.1 with
  | some e => rw [herr] at hsucc; simp at hsucc
  | none =>
    rw [herr] at hsucc
    simp only [Prod.mk.injEq] at hsucc
    exact hsucc.1.symm

theorem FindDocumentHardDeletionCandidates_top (h : Housekeeping) (limit fs : Nat)
    (grace : Duration) (last : ID) (projects : List ProjectInfo) (top : ID)
    (cands : List DocInfo)
    (hp : h.db.findNextNCyclingProjectInfos fs last = .ok projects)
    (hsucc : (h.FindDocumentHardDeletionCandidates limit fs grace last).1 =
      (top, cands, none)) :
    top = topProject projects fs := by
  simp only [Housekeeping.FindDocumentHardDeletionCandidates, hp] at hsucc
  cases herr : (findDocsLoop h.db limit grace projects).2.1 with
  | some e => rw [herr] at hsucc; simp at hsucc
  | none =>
    rw [herr] at hsucc
    simp only [Prod.mk.injEq] at hsucc
    exact hsucc.1.symm

theorem topProject_short (projects : List ProjectInfo) (fs : Nat)
    (hlt : projects.length < fs) : topProject projects fs = DefaultProjectID := by
  simp [topProject, hlt]

theorem topProject_full (projects : List ProjectInfo) (fs : Nat) (p : ProjectInfo)
    (hge : fs ≤ projects.length) (hlast : projects.getLast? = some p) :
    topProject projects fs = p.id := by
  simp [topProject, Nat.not_lt.mpr hge, hlast]

/-- C1: for every successful candidate-finding call (`FindDeactivateCandidates`
or `FindDocumentHardDeletionCandidates`), if the tenant listing returned fewer
than `projectFetchSize` tenants the returned next cursor is the sentinel
`DefaultProjectID`, regardless of which tenants were returned; otherwise it is
the ID of the last tenant in the returned page. -/
theorem C1_next_cursor (h : Housekeeping) (climit dlimit fetchSize : Nat)
    (grace : Duration) (last : ID) (projects : List ProjectInfo)
    (topC : ID) (candsC : List ClientInfo) (topD : ID) (candsD : List DocInfo)
    (hp : h.db.findNextNCyclingProjectInfos fetchSize last = .ok projects)
    (hC : (h.FindDeactivateCandidates climit fetchSize last).1 = (topC, candsC, none))
    (hD : (h.FindDocumentHardDeletionCandidates dlimit fetchSize grace last).1 =
      (topD, candsD, none)) :
    (projects.length < fetchSize → topC = DefaultProjectID ∧ topD = DefaultProjectID) ∧
    (∀ p, fetchSize ≤ projects.length → projects.getLast? = some p →
      topC = p.id ∧ topD = p.id) := by
  have htC := FindDeactivateCandidates_top h climit fetchSize last projects topC candsC hp hC
  have htD := FindDocumentHardDeletionCandidates_top h dlimit fetchSize grace last projects
    topD candsD hp hD
  subst htC htD
  constructor
  · intro hlt
    exact ⟨topProject_short projects fetchSize hlt, topProject_short projects fetchSize hlt⟩
  · intro p hge hlast
    exact ⟨topProject_full projects fetchSize p hge hlast,
      topProject_full projects fetchSize p hge hlast⟩

theorem C1_next_cursor_witness :
    (([pA, pB] : List ProjectInfo).length < 3 →
      DefaultProjectID = DefaultProjectID ∧ DefaultProjectID = DefaultProjectID) ∧
    (∀ p, 3 ≤ ([pA, pB] : List ProjectInfo).length →
      ([pA, pB] : List ProjectInfo).getLast? = some p →
      DefaultProjectID = p.id ∧ DefaultProjectID = p.id) :=
  C1_next_cursor hkShortPage 5 5 3 24 DefaultProjectID [pA, pB]
    DefaultProjectID [cA1, cA2, cB1] DefaultProjectID [dA1]
    (by decide) (by decide) (by decide)

def fCOk : ProjectInfo → List ClientInfo := fun p => if p.id = "A" then [cA1, cA2] else [cB1]

def fDOk : ProjectInfo → List DocInfo := fun p => if p.id = "A" then [dA1] else []

/-- C7: for every successful candidate-finding call over a fetched tenant
page, the per-tenant candidate lookup runs once per fetched tenant with the
per-tenant limit the call was given, in tenant enumeration order, and the
returned batch is the concatenation of the per-tenant results in that order
(store order within a tenant preserved); a tenant with zero candidates
contributes nothing to the batch but still occupies its slot in the page. -/
theorem C7_per_tenant_lookup_concat (h : Housekeeping) (climit dlimit fetchSize : Nat)
    (grace : Duration) (last : ID) (projects : List ProjectInfo)
    (fC : ProjectInfo → List ClientInfo) (fD : ProjectInfo → List DocInfo)
    (hp : h.db.findNextNCyclingProjectInfos fetchSize last = .ok projects)
    (hCall : ∀ p ∈ projects,
      h.db.findDeactivateCandidatesPerProject p climit = .ok (fC p))
    (hDall : ∀ p ∈ projects,
      h.db.findDocumentHardDeletionCandidatesPerProject p dlimit grace = .ok (fD p)) :
    (h.FindDeactivateCandidates climit fetchSize last).1.2 =
      ((projects.map fC).flatten, none) ∧
    (h.FindDeactivateCandidates climit fetchSize last).2 =
      Event.findProjects fetchSize last true ::
        (projects.map fun p => Event.findClientCands p.id climit true) ∧
    (h.FindDocumentHardDeletionCandidates dlimit fetchSize grace last).1.2 =
      ((projects.map fD).flatten, none) ∧
    (h.FindDocumentHardDeletionCandidates dlimit fetchSize grace last).2 =
      Event.findProjects fetchSize last true ::
        (projects.map fun p => Event.findDocCands p.id dlimit grace true) := by
  have hcl := findClientsLoop_ok h.db climit fC projects hCall
  have hdl := findDocsLoop_ok h.db dlimit grace fD projects hDall
  refine ⟨?_, ?_, ?_, ?_⟩ <;>
    simp [Housekeeping.FindDeactivateCandidates,
      Housekeeping.FindDocumentHardDeletionCandidates, hp, hcl, hdl]

theorem C7_per_tenant_lookup_concat_witness :
    (hkOk.FindDeactivateCandidates 5 2 DefaultProjectID).1.2 =
      ((([pA, pB] : List ProjectInfo).map fCOk).flatten, none) ∧
    (hkOk.FindDeactivateCandidates 5 2 DefaultProjectID).2 =
      Event.findProjects 2 DefaultProjectID true ::
        (([pA, pB] : List ProjectInfo).map fun p => Event.findClientCands p.id 5 true) ∧
    (hkOk.FindDocumentHardDeletionCandidates 5 2 24 DefaultProjectID).1.2 =
      ((([pA, pB] : List ProjectInfo).map fDOk).flatten, none) ∧
    (hkOk.FindDocumentHardDeletionCandidates 5 2 24 DefaultProjectID).2 =
      Event.findProjects 2 DefaultProjectID true ::
        (([pA, pB] : List ProjectInfo).map fun p => Event.findDocCands p.id 5 24 true) :=
  C7_per_tenant_lookup_concat hkOk 5 5 2 24 DefaultProjectID [pA, pB] fCOk fDOk
    (by decide) (by decide) (by decide)

/-- C2: in each iteration of a scheduler loop (`AttachDeactivateCandidates` or
`AttachDocumentHardDeletion`), if the sweep returns a non-nil error the loop's
cursor is left unchanged for the next iteration; the cursor is replaced by the
sweep's returned value only when the sweep returns nil error. -/
theorem C2_cursor_on_error (h : Housekeeping) (cursor : ID) (cancelled : Bool) :
    ((∀ x e, h.deactivateSweep cursor = (x, some e) →
        (h.AttachDeactivateCandidatesStep cancelled cursor).next = cursor) ∧
      (∀ next, h.deactivateSweep cursor = (next, none) →
        (h.AttachDeactivateCandidatesStep cancelled cursor).next = next)) ∧
    ((∀ x e, h.deleteSweep cursor = (x, some e) →
        (h.AttachDocumentHardDeletionStep cancelled cursor).next = cursor) ∧
      (∀ next, h.deleteSweep cursor = (next, none) →
        (h.AttachDocumentHardDeletionStep cancelled cursor).next = next)) := by
  refine ⟨⟨?_, ?_⟩, ⟨?_, ?_⟩⟩
  · intro x e hsw
    simp [Housekeeping.AttachDeactivateCandidatesStep, AttachLoopStep, hsw]
  · intro next hsw
    simp only [Housekeeping.AttachDeactivateCandidatesStep, AttachLoopStep, hsw]
    cases cancelled <;> rfl
  · intro x e hsw
    simp [Housekeeping.AttachDocumentHardDeletionStep, AttachLoopStep, hsw]
  · intro next hsw
    simp only [Housekeeping.AttachDocumentHardDeletionStep, AttachLoopStep, hsw]
    cases cancelled <;> rfl

theorem C2_cursor_on_error_witness :
    (hkLockFail.AttachDeactivateCandidatesStep false "P9").next = "P9" ∧
    (hkOk.AttachDeactivateCandidatesStep false "P9").next = "B" ∧
    (hkLockFail.AttachDocumentHardDeletionStep false "P9").next = "P9" ∧
    (hkOk.AttachDocumentHardDeletionStep false "P9").next = "B" :=
  ⟨((C2_cursor_on_error hkLockFail "P9" false).1.1 DefaultProjectID "lockfail" (by decide)),
    ((C2_cursor_on_error hkOk "P9" false).1.2 "B" (by decide)),
    ((C2_cursor_on_error hkLockFail "P9" false).2.1 DefaultProjectID "lockfail" (by decide)),
    ((C2_cursor_on_error hkOk "P9" false).2.2 "B" (by decide))⟩

/-- C3: after an iteration whose sweep returned a non-nil error, the loop
re-iterates immediately — the outcome has no interval wait, does not halt, and
is the same whether or not the cancellation signal is ready (cancellation is
not observed on the error path); the interval wait and the cancellation check
happen only in iterations whose sweep succeeded. -/
theorem C3_no_wait_after_error (sweep : ID → ID × Option Err) (cursor : ID)
    (cancelled : Bool) :
    ((sweep cursor).2.isSome →
      AttachLoopStep sweep cancelled cursor = ⟨cursor, false, false⟩) ∧
    ((AttachLoopStep sweep cancelled cursor).waited = true ∨
        (AttachLoopStep sweep cancelled cursor).halted = true →
      (sweep cursor).2 = none) := by
  constructor
  · intro herr
    rcases hsw : sweep cursor with ⟨x, err⟩
    cases err with
    | none => rw [hsw] at herr; simp at herr
    | some e => simp [AttachLoopStep, hsw]
  · intro hobs
    rcases hsw : sweep cursor with ⟨x, err⟩
    cases err with
    | none => rfl
    | some e =>
      simp only [AttachLoopStep, hsw] at hobs
      rcases hobs with hobs | hobs <;> simp at hobs

theorem C3_no_wait_after_error_witness :
    AttachLoopStep hkLockFail.deactivateSweep true "P9" = ⟨"P9", false, false⟩ :=
  (C3_no_wait_after_error hkLockFail.deactivateSweep "P9" true).1 (by decide)

theorem loopRun_no_halt (sweep : ID → ID × Option Err) :
    ∀ (fuel : Nat) (cursor : ID), (loopRun sweep false fuel cursor).2.2 = false := by
  intro fuel
  induction fuel with
  | zero => intro cursor; rfl
  | succ n ih =>
    intro cursor
    simp only [loopRun]
    rcases hsw : sweep cursor with ⟨x, err⟩
    cases err with
    | some e => exact ih cursor
    | none => simp only [Bool.false_eq_true, if_false]; exact ih x

/-- C8: the scheduler loop is terminal under `Stop`: once `Stop` has cancelled
the shared context, a loop iteration whose sweep completes successfully
observes the signal at its wait point and the loop returns having run exactly
that one sweep — no further sweep ever runs; cancellation is observed only at
the wait point (an iteration whose sweep errors proceeds identically whether
or not the signal is ready, and an in-flight sweep always runs to completion
before the signal can be observed); without cancellation the loop never
halts. -/
theorem C8_stop_terminal (sweep : ID → ID × Option Err) (ctx : HContext)
    (fuel : Nat) (cursor : ID) :
    (∀ next, sweep cursor = (next, none) →
      loopRun sweep (Stop ctx).done (fuel + 1) cursor = (1, next, true)) ∧
    (∀ x e, sweep cursor = (x, some e) → ∀ b,
      loopRun sweep b (fuel + 1) cursor =
        ((loopRun sweep b fuel cursor).1 + 1, (loopRun sweep b fuel cursor).2)) ∧
    (loopRun sweep false fuel cursor).2.2 = false := by
  refine ⟨?_, ?_, loopRun_no_halt sweep fuel cursor⟩
  · intro next hsw
    simp [loopRun, hsw, Stop]
  · intro x e hsw b
    simp only [loopRun, hsw]

theorem C8_stop_terminal_witness :
    loopRun hkOk.deactivateSweep (Stop ⟨false⟩).done 3 "P9" = (1, "B", true) ∧
    loopRun hkLockFail.deactivateSweep true 3 "P9" =
      ((loopRun hkLockFail.deactivateSweep true 2 "P9").1 + 1,
        (loopRun hkLockFail.deactivateSweep true 2 "P9").2) :=
  ⟨(C8_stop_terminal hkOk.deactivateSweep ⟨false⟩ 2 "P9").1 "B" (by decide),
    (C8_stop_terminal hkLockFail.deactivateSweep ⟨false⟩ 2 "P9").2.1
      DefaultProjectID "lockfail" (by decide) true⟩

/-! Branch lemmas for `deactivateCandidates` and `DeleteDocument`. -/

theorem deact_newLocker_fail (h : Housekeeping) (last : ID) (e : Err)
    (hn : h.coordinator.newLocker deactivateCandidatesKey = some e) :
    h.deactivateCandidates last =
      ((DefaultProjectID, some e), [.newLocker deactivateCandidatesKey false]) := by
  simp [Housekeeping.deactivateCandidates, hn]

theorem deact_lock_fail (h : Housekeeping) (last : ID) (e : Err)
    (hn : h.coordinator.newLocker deactivateCandidatesKey = none)
    (hl : h.coordinator.lockErr = some e) :
    h.deactivateCandidates last =
      ((DefaultProjectID, some e),
        [.newLocker deactivateCandidatesKey true, .lock deactivateCandidatesKey false]) := by
  simp [Housekeeping.deactivateCandidates, hn, hl]

theorem deact_find_fail (h : Housekeeping) (last : ID) (e : Err)
    (hn : h.coordinator.newLocker deactivateCandidatesKey = none)
    (hl : h.coordinator.lockErr = none)
    (hf : (h.FindDeactivateCandidates h.clientDeactivationCandidateLimitPerProject
      h.projectFetchSize last).1.2.2 = some e) :
    h.deactivateCandidates last =
      ((DefaultProjectID, some e),
        [.newLocker deactivateCandidatesKey true, .lock deactivateCandidatesKey true] ++
          (h.FindDeactivateCandidates h.clientDeactivationCandidateLimitPerProject
            h.projectFetchSize last).2 ++
          unlockEvents h.coordinator deactivateCandidatesKey) := by
  simp [Housekeeping.deactivateCandidates, hn, hl, hf]

theorem deact_act_fail (h : Housekeeping) (last : ID) (e : Err)
    (hn : h.coordinator.newLocker deactivateCandidatesKey = none)
    (hl : h.coordinator.lockErr = none)
    (hf : (h.FindDeactivateCandidates h.clientDeactivationCandidateLimitPerProject
      h.projectFetchSize last).1.2.2 = none)
    (hd : (deactivateLoopBody h.db
      (h.FindDeactivateCandidates h.clientDeactivationCandidateLimitPerProject
        h.projectFetchSize last).1.2.1).2.1 = some e) :
    h.deactivateCandidates last =
      ((DefaultProjectID, some e),
        [.newLocker deactivateCandidatesKey true, .lock deactivateCandidatesKey true] ++
          (h.FindDeactivateCandidates h.clientDeactivationCandidateLimitPerProject
            h.projectFetchSize last).2 ++
          (deactivateLoopBody h.db
            (h.FindDeactivateCandidates h.clientDeactivationCandidateLimitPerProject
              h.projectFetchSize last).1.2.1).2.2 ++
          unlockEvents h.coordinator deactivateCandidatesKey) := by
  simp [Housekeeping.deactivateCandidates, hn, hl, hf, hd]

theorem deact_ok (h : Housekeeping) (last : ID)
    (hn : h.coordinator.newLocker deactivateCandidatesKey = none)
    (hl : h.coordinator.lockErr = none)
    (hf : (h.FindDeactivateCandidates h.clientDeactivationCandidateLimitPerProject
      h.projectFetchSize last).1.2.2 = none)
    (hd : (deactivateLoopBody h.db
      (h.FindDeactivateCandidates h.clientDeactivationCandidateLimitPerProject
        h.projectFetchSize last).1.2.1).2.1 = none) :
    h.deactivateCandidates last =
      (((h.FindDeactivateCandidates h.clientDeactivationCandidateLimitPerProject
          h.projectFetchSize last).1.1, none),
        [.newLocker deactivateCandidatesKey true, .lock deactivateCandidatesKey true] ++
          (h.FindDeactivateCandidates h.clientDeactivationCandidateLimitPerProject
            h.projectFetchSize last).2 ++
          (deactivateLoopBody h.db
            (h.FindDeactivateCandidates h.clientDeactivationCandidateLimitPerProject
              h.projectFetchSize last).1.2.1).2.2 ++
          (if (h.FindDeactivateCandidates h.clientDeactivationCandidateLimitPerProject
              h.projectFetchSize last).1.2.1.length > 0 then
            [Event.logInfo
              (h.FindDeactivateCandidates h.clientDeactivationCandidateLimitPerProject
                h.projectFetchSize last).1.2.1.length
              (deactivateLoopBody h.db
                (h.FindDeactivateCandidates h.clientDeactivationCandidateLimitPerProject
                  h.projectFetchSize last).1.2.1).1]
          else []) ++
          unlockEvents h.coordinator deactivateCandidatesKey) := by
  simp [Housekeeping.deactivateCandidates, hn, hl, hf, hd]

theorem delete_newLocker_fail (h : Housekeeping) (last : ID) (e : Err)
    (hn : h.coordinator.newLocker documentHardDeletionLockKey = some e) :
    h.DeleteDocument last =
      ((DefaultProjectID, some e), [.newLocker documentHardDeletionLockKey false]) := by
  simp [Housekeeping.DeleteDocument, hn]

theorem delete_lock_fail (h : Housekeeping) (last : ID) (e : Err)
    (hn : h.coordinator.newLocker documentHardDeletionLockKey = none)
    (hl : h.coordinator.lockErr = some e) :
    h.DeleteDocument last =
      ((DefaultProjectID, some e),
        [.newLocker documentHardDeletionLockKey true,
          .lock documentHardDeletionLockKey false]) := by
  simp [Housekeeping.DeleteDocument, hn, hl]

theorem delete_find_fail (h : Housekeeping) (last : ID) (e : Err)
    (hn : h.coordinator.newLocker documentHardDeletionLockKey = none)
    (hl : h.coordinator.lockErr = none)
    (hf : (h.FindDocumentHardDeletionCandidates
      h.DocumentHardDeletionCandidateLimitPerProject h.projectFetchSize
      h.documentHardDeletionGracefulPeriod last).1.2.2 = some e) :
    h.DeleteDocument last =
      ((DefaultProjectID, some e),
        [.newLocker documentHardDeletionLockKey true,
          .lock documentHardDeletionLockKey true] ++
          (h.FindDocumentHardDeletionCandidates
            h.DocumentHardDeletionCandidateLimitPerProject h.projectFetchSize
            h.documentHardDeletionGracefulPeriod last).2 ++
          unlockEvents h.coordinator documentHardDeletionLockKey) := by
  simp [Housekeeping.DeleteDocument, hn, hl, hf]

theorem delete_act_fail (h : Housekeeping) (last : ID) (e : Err)
    (hn : h.coordinator.newLocker documentHardDeletionLockKey = none)
    (hl : h.coordinator.lockErr = none)
    (hf : (h.FindDocumentHardDeletionCandidates
      h.DocumentHardDeletionCandidateLimitPerProject h.projectFetchSize
      h.documentHardDeletionGracefulPeriod last).1.2.2 = none)
    (hd : h.db.deleteDocument (h.FindDocumentHardDeletionCandidates
      h.DocumentHardDeletionCandidateLimitPerProject h.projectFetchSize
      h.documentHardDeletionGracefulPeriod last).1.2.1 = .error e) :
    h.DeleteDocument last =
      ((DefaultProjectID, some e),
        [.newLocker documentHardDeletionLockKey true,
          .lock documentHardDeletionLockKey true] ++
          (h.FindDocumentHardDeletionCandidates
            h.DocumentHardDeletionCandidateLimitPerProject h.projectFetchSize
            h.documentHardDeletionGracefulPeriod last).2 ++
          [.deleteDocs (h.FindDocumentHardDeletionCandidates
            h.DocumentHardDeletionCandidateLimitPerProject h.projectFetchSize
            h.documentHardDeletionGracefulPeriod last).1.2.1 false] ++
          unlockEvents h.coordinator documentHardDeletionLockKey) := by
  simp [Housekeeping.DeleteDocument, hn, hl, hf, hd]

theorem delete_ok (h : Housekeeping) (last : ID) (count : Nat)
    (hn : h.coordinator.newLocker documentHardDeletionLockKey = none)
    (hl : h.coordinator.lockErr = none)
    (hf : (h.FindDocumentHardDeletionCandidates
      h.DocumentHardDeletionCandidateLimitPerProject h.projectFetchSize
      h.documentHardDeletionGracefulPeriod last).1.2.2 = none)
    (hd : h.db.deleteDocument (h.FindDocumentHardDeletionCandidates
      h.DocumentHardDeletionCandidateLimitPerProject h.projectFetchSize
      h.documentHardDeletionGracefulPeriod last).1.2.1 = .ok count) :
    h.DeleteDocument last =
      (((h.FindDocumentHardDeletionCandidates
          h.DocumentHardDeletionCandidateLimitPerProject h.projectFetchSize
          h.documentHardDeletionGracefulPeriod last).1.1, none),
        [.newLocker documentHardDeletionLockKey true,
          .lock documentHardDeletionLockKey true] ++
          (h.FindDocumentHardDeletionCandidates
            h.DocumentHardDeletionCandidateLimitPerProject h.projectFetchSize
            h.documentHardDeletionGracefulPeriod last).2 ++
          [.deleteDocs (h.FindDocumentHardDeletionCandidates
            h.DocumentHardDeletionCandidateLimitPerProject h.projectFetchSize
            h.documentHardDeletionGracefulPeriod last).1.2.1 true] ++
          (if (h.FindDocumentHardDeletionCandidates
              h.DocumentHardDeletionCandidateLimitPerProject h.projectFetchSize
              h.documentHardDeletionGracefulPeriod last).1.2.1.length > 0 then
            [Event.logInfo (h.FindDocumentHardDeletionCandidates
              h.DocumentHardDeletionCandidateLimitPerProject h.projectFetchSize
              h.documentHardDeletionGracefulPeriod last).1.2.1.length count]
          else []) ++
          unlockEvents h.coordinator documentHardDeletionLockKey) := by
  simp [Housekeeping.DeleteDocument, hn, hl, hf, hd]

/-- C9: whenever a sweep invocation (`deactivateCandidates` or
`DeleteDocument`) returns a non-nil error, the cursor it returns alongside the
error is the sentinel `DefaultProjectID` (so a caller adopting the returned
cursor on error would reset to start-of-cycle rather than keep its
position). -/
theorem C9_error_cursor_sentinel (h : Housekeeping) (last : ID) :
    (∀ e, (h.deactivateCandidates last).1.2 = some e →
      (h.deactivateCandidates last).1.1 = DefaultProjectID) ∧
    (∀ e, (h.DeleteDocument last).1.2 = some e →
      (h.DeleteDocument last).1.1 = DefaultProjectID) := by
  constructor
  · intro e herr
    cases hn : h.coordinator.newLocker deactivateCandidatesKey with
    | some e₁ => rw [deact_newLocker_fail h last e₁ hn]
    | none =>
      cases hl : h.coordinator.lockErr with
      | some e₁ => rw [deact_lock_fail h last e₁ hn hl]
      | none =>
        cases hf : (h.FindDeactivateCandidates
            h.clientDeactivationCandidateLimitPerProject h.projectFetchSize
            last).1.2.2 with
        | some e₁ => rw [deact_find_fail h last e₁ hn hl hf]
        | none =>
          cases hd : (deactivateLoopBody h.db (h.FindDeactivateCandidates
              h.clientDeactivationCandidateLimitPerProject h.projectFetchSize
              last).1.2.1).2.1 with
          | some e₁ => rw [deact_act_fail h last e₁ hn hl hf hd]
          | none => rw [deact_ok h last hn hl hf hd] at herr; simp at herr
  · intro e herr
    cases hn : h.coordinator.newLocker documentHardDeletionLockKey with
    | some e₁ => rw [delete_newLocker_fail h last e₁ hn]
    | none =>
      cases hl : h.coordinator.lockErr with
      | some e₁ => rw [delete_lock_fail h last e₁ hn hl]
      | none =>
        cases hf : (h.FindDocumentHardDeletionCandidates
            h.DocumentHardDeletionCandidateLimitPerProject h.projectFetchSize
            h.documentHardDeletionGracefulPeriod last).1.2.2 with
        | some e₁ => rw [delete_find_fail h last e₁ hn hl hf]
        | none =>
          cases hd : h.db.deleteDocument (h.FindDocumentHardDeletionCandidates
              h.DocumentHardDeletionCandidateLimitPerProject h.projectFetchSize
              h.documentHardDeletionGracefulPeriod last).1.2.1 with
          | error e₁ => rw [delete_act_fail h last e₁ hn hl hf hd]
          | ok count => rw [delete_ok h last count hn hl hf hd] at herr; simp at herr

theorem C9_error_cursor_sentinel_witness :
    (hkLockFail.deactivateCandidates "P9").1.1 = DefaultProjectID ∧
    (hkLockFail.DeleteDocument "P9").1.1 = DefaultProjectID :=
  ⟨(C9_error_cursor_sentinel hkLockFail "P9").1 "lockfail" (by decide),
    (C9_error_cursor_sentinel hkLockFail "P9").2 "lockfail" (by decide)⟩

theorem deact_trace_locked (h : Housekeeping) (last : ID)
    (hn : h.coordinator.newLocker deactivateCandidatesKey = none)
    (hl : h.coordinator.lockErr = none) :
    ∃ rest, (h.deactivateCandidates last).2 =
      Event.newLocker deactivateCandidatesKey true ::
        Event.lock deactivateCandidatesKey true :: rest := by
  cases hf : (h.FindDeactivateCandidates h.clientDeactivationCandidateLimitPerProject
      h.projectFetchSize last).1.2.2 with
  | some e => exact ⟨_, by rw [deact_find_fail h last e hn hl hf]; exact rfl⟩
  | none =>
    cases hd : (deactivateLoopBody h.db (h.FindDeactivateCandidates
        h.clientDeactivationCandidateLimitPerProject h.projectFetchSize
        last).1.2.1).2.1 with
    | some e => exact ⟨_, by rw [deact_act_fail h last e hn hl hf hd]; exact rfl⟩
    | none => exact ⟨_, by rw [deact_ok h last hn hl hf hd]; exact rfl⟩

theorem delete_trace_locked (h : Housekeeping) (last : ID)
    (hn : h.coordinator.newLocker documentHardDeletionLockKey = none)
    (hl : h.coordinator.lockErr = none) :
    ∃ rest, (h.DeleteDocument last).2 =
      Event.newLocker documentHardDeletionLockKey true ::
        Event.lock documentHardDeletionLockKey true :: rest := by
  cases hf : (h.FindDocumentHardDeletionCandidates
      h.DocumentHardDeletionCandidateLimitPerProject h.projectFetchSize
      h.documentHardDeletionGracefulPeriod last).1.2.2 with
  | some e => exact ⟨_, by rw [delete_find_fail h last e hn hl hf]; exact rfl⟩
  | none =>
    cases hd : h.db.deleteDocument (h.FindDocumentHardDeletionCandidates
        h.DocumentHardDeletionCandidateLimitPerProject h.projectFetchSize
        h.documentHardDeletionGracefulPeriod last).1.2.1 with
    | error e => exact ⟨_, by rw [delete_act_fail h last e hn hl hf hd]; exact rfl⟩
    | ok count => exact ⟨_, by rw [delete_ok h last count hn hl hf hd]; exact rfl⟩

/-- C5: a sweep invocation in which locker creation or lock acquisition fails
returns that error having performed no store reads and no side-effecting
store actions (its whole trace is just the failed lock protocol); and in every
sweep invocation, any store read or mutation happens only after the sweep
kind's named lock was successfully acquired (the trace begins with the
successful `NewLocker` and `Lock` events). -/
theorem C5_no_store_before_lock (h : Housekeeping) (last : ID) :
    (∀ e, h.coordinator.newLocker deactivateCandidatesKey = some e →
      h.deactivateCandidates last =
        ((DefaultProjectID, some e), [.newLocker deactivateCandidatesKey false])) ∧
    (∀ e, h.coordinator.newLocker deactivateCandidatesKey = none →
      h.coordinator.lockErr = some e →
      h.deactivateCandidates last =
        ((DefaultProjectID, some e),
          [.newLocker deactivateCandidatesKey true,
            .lock deactivateCandidatesKey false])) ∧
    (∀ e, h.coordinator.newLocker documentHardDeletionLockKey = some e →
      h.DeleteDocument last =
        ((DefaultProjectID, some e), [.newLocker documentHardDeletionLockKey false])) ∧
    (∀ e, h.coordinator.newLocker documentHardDeletionLockKey = none →
      h.coordinator.lockErr = some e →
      h.DeleteDocument last =
        ((DefaultProjectID, some e),
          [.newLocker documentHardDeletionLockKey true,
            .lock documentHardDeletionLockKey false])) ∧
    ((∃ ev ∈ (h.deactivateCandidates last).2, ev.isStore = true) →
      ∃ rest, (h.deactivateCandidates last).2 =
        Event.newLocker deactivateCandidatesKey true ::
          Event.lock deactivateCandidatesKey true :: rest) ∧
    ((∃ ev ∈ (h.DeleteDocument last).2, ev.isStore = true) →
      ∃ rest, (h.DeleteDocument last).2 =
        Event.newLocker documentHardDeletionLockKey true ::
          Event.lock documentHardDeletionLockKey true :: rest) := by
  refine ⟨fun e hn => deact_newLocker_fail h last e hn,
    fun e hn hl => deact_lock_fail h last e hn hl,
    fun e hn => delete_newLocker_fail h last e hn,
    fun e hn hl => delete_lock_fail h last e hn hl, ?_, ?_⟩
  · rintro ⟨ev, hev, hst⟩
    cases hn : h.coordinator.newLocker deactivateCandidatesKey with
    | some e =>
      rw [deact_newLocker_fail h last e hn] at hev
      simp only [List.mem_singleton] at hev
      subst hev
      simp [Event.isStore] at hst
    | none =>
      cases hl : h.coordinator.lockErr with
      | some e =>
        rw [deact_lock_fail h last e hn hl] at hev
        simp only [List.mem_cons, List.mem_singleton] at hev
        rcases hev with hev | hev | hev <;> first
          | (subst hev; simp [Event.isStore] at hst)
          | simp at hev
      | none => exact deact_trace_locked h last hn hl
  · rintro ⟨ev, hev, hst⟩
    cases hn : h.coordinator.newLocker documentHardDeletionLockKey with
    | some e =>
      rw [delete_newLocker_fail h last e hn] at hev
      simp only [List.mem_singleton] at hev
      subst hev
      simp [Event.isStore] at hst
    | none =>
      cases hl : h.coordinator.lockErr with
      | some e =>
        rw [delete_lock_fail h last e hn hl] at hev
        simp only [List.mem_cons, List.mem_singleton] at hev
        rcases hev with hev | hev | hev <;> first
          | (subst hev; simp [Event.isStore] at hst)
          | simp at hev
      | none => exact delete_trace_locked h last hn hl

theorem C5_no_store_before_lock_witness :
    hkNLFail.deactivateCandidates "P9" =
      ((DefaultProjectID, some "nlfail"), [.newLocker deactivateCandidatesKey false]) ∧
    hkLockFail.DeleteDocument "P9" =
      ((DefaultProjectID, some "lockfail"),
        [.newLocker documentHardDeletionLockKey true,
          .lock documentHardDeletionLockKey false]) ∧
    ∃ rest, (hkOk.deactivateCandidates "P9").2 =
      Event.newLocker deactivateCandidatesKey true ::
        Event.lock deactivateCandidatesKey true :: rest :=
  ⟨(C5_no_store_before_lock hkNLFail "P9").1 "nlfail" (by decide),
    (C5_no_store_before_lock hkLockFail "P9").2.2.2.1 "lockfail" (by decide) (by decide),
    (C5_no_store_before_lock hkOk "P9").2.2.2.2.1
      ⟨Event.findProjects 2 "P9" true, by decide, rfl⟩⟩

theorem unlockEvents_count (co : Coordinator) (key : String) :
    ((unlockEvents co key).filter Event.isUnlock).length = 1 := by
  cases hu : co.unlockErr <;> simp [unlockEvents, hu, Event.isUnlock]

theorem find_clients_filter_unlock (h : Housekeeping) (limit fs : Nat) (last : ID) :
    (h.FindDeactivateCandidates limit fs last).2.filter Event.isUnlock = [] :=
  List.filter_eq_nil_iff.mpr fun ev hev => by
    have hcl := (FindDeactivateCandidates_trace_clean h limit fs last ev hev).2.1
    simp [hcl]

theorem find_docs_filter_unlock (h : Housekeeping) (limit fs : Nat)
    (grace : Duration) (last : ID) :
    (h.FindDocumentHardDeletionCandidates limit fs grace last).2.filter
      Event.isUnlock = [] :=
  List.filter_eq_nil_iff.mpr fun ev hev => by
    have hcl :=
      (FindDocumentHardDeletionCandidates_trace_clean h limit fs grace last ev hev).2.1
    simp [hcl]

theorem deact_loop_filter_unlock (db : DB) (cs : List ClientInfo) :
    (deactivateLoopBody db cs).2.2.filter Event.isUnlock = [] :=
  List.filter_eq_nil_iff.mpr fun ev hev => by
    obtain ⟨c, ok, hsh⟩ := deactivateLoopBody_trace_mem db cs ev hev
    subst hsh
    simp [Event.isUnlock]

theorem deact_result_ignores_unlock (h : Housekeeping) (u v : Option Err) (last : ID) :
    ((withUnlockErr h u).deactivateCandidates last).1 =
      ((withUnlockErr h v).deactivateCandidates last).1 := by
  cases hn : h.coordinator.newLocker deactivateCandidatesKey with
  | some e =>
    rw [deact_newLocker_fail (withUnlockErr h u) last e hn,
      deact_newLocker_fail (withUnlockErr h v) last e hn]
  | none =>
    cases hl : h.coordinator.lockErr with
    | some e =>
      rw [deact_lock_fail (withUnlockErr h u) last e hn hl,
        deact_lock_fail (withUnlockErr h v) last e hn hl]
    | none =>
      cases hf : (h.FindDeactivateCandidates
          h.clientDeactivationCandidateLimitPerProject h.projectFetchSize
          last).1.2.2 with
      | some e =>
        rw [deact_find_fail (withUnlockErr h u) last e hn hl hf,
          deact_find_fail (withUnlockErr h v) last e hn hl hf]
      | none =>
        cases hd : (deactivateLoopBody h.db (h.FindDeactivateCandidates
            h.clientDeactivationCandidateLimitPerProject h.projectFetchSize
            last).1.2.1).2.1 with
        | some e =>
          rw [deact_act_fail (withUnlockErr h u) last e hn hl hf hd,
            deact_act_fail (withUnlockErr h v) last e hn hl hf hd]
        | none =>
          rw [deact_ok (withUnlockErr h u) last hn hl hf hd,
            deact_ok (withUnlockErr h v) last hn hl hf hd]
          exact rfl

theorem delete_result_ignores_unlock (h : Housekeeping) (u v : Option Err) (last : ID) :
    ((withUnlockErr h u).DeleteDocument last).1 =
      ((withUnlockErr h v).DeleteDocument last).1 := by
  cases hn : h.coordinator.newLocker documentHardDeletionLockKey with
  | some e =>
    rw [delete_newLocker_fail (withUnlockErr h u) last e hn,
      delete_newLocker_fail (withUnlockErr h v) last e hn]
  | none =>
    cases hl : h.coordinator.lockErr with
    | some e =>
      rw [delete_lock_fail (withUnlockErr h u) last e hn hl,
        delete_lock_fail (withUnlockErr h v) last e hn hl]
    | none =>
      cases hf : (h.FindDocumentHardDeletionCandidates
          h.DocumentHardDeletionCandidateLimitPerProject h.projectFetchSize
          h.documentHardDeletionGracefulPeriod last).1.2.2 with
      | some e =>
        rw [delete_find_fail (withUnlockErr h u) last e hn hl hf,
          delete_find_fail (withUnlockErr h v) last e hn hl hf]
      | none =>
        cases hd : h.db.deleteDocument (h.FindDocumentHardDeletionCandidates
            h.DocumentHardDeletionCandidateLimitPerProject h.projectFetchSize
            h.documentHardDeletionGracefulPeriod last).1.2.1 with
        | error e =>
          rw [delete_act_fail (withUnlockErr h u) last e hn hl hf hd,
            delete_act_fail (withUnlockErr h v) last e hn hl hf hd]
        | ok count =>
          rw [delete_ok (withUnlockErr h u) last count hn hl hf hd,
            delete_ok (withUnlockErr h v) last count hn hl hf hd]
          exact rfl

theorem logEvs_filter_unlock (b : Prop) [Decidable b] (a c : Nat) :
    (if b then [Event.logInfo a c] else []).filter Event.isUnlock = [] := by
  split <;> simp [Event.isUnlock]

/-- C6: in every sweep invocation that successfully acquired its named lock,
the lock is released exactly once on every exit path (success,
candidate-lookup error, or action error), and a failure of the release itself
is only logged — it never changes the invocation's returned cursor or its
returned error. -/
theorem C6_unlock_exactly_once (h : Housekeeping) (last : ID) (e : Err) :
    (h.coordinator.newLocker deactivateCandidatesKey = none →
      h.coordinator.lockErr = none →
      ((h.deactivateCandidates last).2.filter Event.isUnlock).length = 1) ∧
    (h.coordinator.newLocker documentHardDeletionLockKey = none →
      h.coordinator.lockErr = none →
      ((h.DeleteDocument last).2.filter Event.isUnlock).length = 1) ∧
    ((withUnlockErr h (some e)).deactivateCandidates last).1 =
      ((withUnlockErr h none).deactivateCandidates last).1 ∧
    ((withUnlockErr h (some e)).DeleteDocument last).1 =
      ((withUnlockErr h none).DeleteDocument last).1 := by
  refine ⟨?_, ?_, deact_result_ignores_unlock h (some e) none last,
    delete_result_ignores_unlock h (some e) none last⟩
  · intro hn hl
    cases hf : (h.FindDeactivateCandidates
        h.clientDeactivationCandidateLimitPerProject h.projectFetchSize
        last).1.2.2 with
    | some e₁ =>
      rw [deact_find_fail h last e₁ hn hl hf]
      simp [List.filter_append, find_clients_filter_unlock, Event.isUnlock,
        unlockEvents_count]
    | none =>
      cases hd : (deactivateLoopBody h.db (h.FindDeactivateCandidates
          h.clientDeactivationCandidateLimitPerProject h.projectFetchSize
          last).1.2.1).2.1 with
      | some e₁ =>
        rw [deact_act_fail h last e₁ hn hl hf hd]
        simp [List.filter_append, find_clients_filter_unlock,
          deact_loop_filter_unlock, Event.isUnlock, unlockEvents_count]
      | none =>
        rw [deact_ok h last hn hl hf hd]
        simp [List.filter_append, find_clients_filter_unlock,
          deact_loop_filter_unlock, logEvs_filter_unlock, Event.isUnlock,
          unlockEvents_count]
  · intro hn hl
    cases hf : (h.FindDocumentHardDeletionCandidates
        h.DocumentHardDeletionCandidateLimitPerProject h.projectFetchSize
        h.documentHardDeletionGracefulPeriod last).1.2.2 with
    | some e₁ =>
      rw [delete_find_fail h last e₁ hn hl hf]
      simp [List.filter_append, find_docs_filter_unlock, Event.isUnlock,
        unlockEvents_count]
    | none =>
      cases hd : h.db.deleteDocument (h.FindDocumentHardDeletionCandidates
          h.DocumentHardDeletionCandidateLimitPerProject h.projectFetchSize
          h.documentHardDeletionGracefulPeriod last).1.2.1 with
      | error e₁ =>
        rw [delete_act_fail h last e₁ hn hl hf hd]
        simp [List.filter_append, find_docs_filter_unlock, Event.isUnlock,
          unlockEvents_count]
      | ok count =>
        rw [delete_ok h last count hn hl hf hd]
        simp [List.filter_append, find_docs_filter_unlock, logEvs_filter_unlock,
          Event.isUnlock, unlockEvents_count]

theorem C6_unlock_exactly_once_witness :
    ((hkUnlockFail.deactivateCandidates "P9").2.filter Event.isUnlock).length = 1 ∧
    ((hkUnlockFail.DeleteDocument "P9").2.filter Event.isUnlock).length = 1 ∧
    ((withUnlockErr hkOk (some "ufail")).deactivateCandidates "P9").1 =
      ((withUnlockErr hkOk none).deactivateCandidates "P9").1 ∧
    ((withUnlockErr hkOk (some "ufail")).DeleteDocument "P9").1 =
      ((withUnlockErr hkOk none).DeleteDocument "P9").1 :=
  ⟨(C6_unlock_exactly_once hkUnlockFail "P9" "ufail").1 (by decide) (by decide),
    (C6_unlock_exactly_once hkUnlockFail "P9" "ufail").2.1 (by decide) (by decide),
    (C6_unlock_exactly_once hkOk "P9" "ufail").2.2.1,
    (C6_unlock_exactly_once hkOk "P9" "ufail").2.2.2⟩

theorem find_clients_filter_deact (h : Housekeeping) (limit fs : Nat) (last : ID) :
    (h.FindDeactivateCandidates limit fs last).2.filter Event.isDeact = [] :=
  List.filter_eq_nil_iff.mpr fun ev hev => by
    have hcl := (FindDeactivateCandidates_trace_clean h limit fs last ev hev).1
    simp [hcl]

theorem unlockEvents_filter_deact (co : Coordinator) (key : String) :
    (unlockEvents co key).filter Event.isDeact = [] := by
  cases hu : co.unlockErr <;> simp [unlockEvents, hu, Event.isDeact]

theorem logEvs_filter_deact (b : Prop) [Decidable b] (a c : Nat) :
    (if b then [Event.logInfo a c] else []).filter Event.isDeact = [] := by
  split <;> simp [Event.isDeact]

theorem deact_events_filter_self (cs : List ClientInfo) (c : ClientInfo) :
    ((cs.map fun x => Event.deactivateClient x true) ++
      [Event.deactivateClient c false]).filter Event.isDeact =
      (cs.map fun x => Event.deactivateClient x true) ++
        [Event.deactivateClient c false] :=
  List.filter_eq_self.mpr fun ev hev => by
    rcases List.mem_append.mp hev with hm | hm
    · obtain ⟨x, _, hx⟩ := List.mem_map.mp hm
      subst hx
      rfl
    · simp only [List.mem_singleton] at hm
      subst hm
      rfl

theorem deact_map_filter_self (cs : List ClientInfo) :
    ((cs.map fun x => Event.deactivateClient x true).filter Event.isDeact) =
      cs.map fun x => Event.deactivateClient x true :=
  List.filter_eq_self.mpr fun ev hev => by
    obtain ⟨x, _, hx⟩ := List.mem_map.mp hev
    subst hx
    rfl

/-- C4: in a client-deactivation sweep over a candidate batch `pre ++ c ::
post` where every action on `pre` succeeds and the action on `c` fails, the
actions run one at a time in batch order; the invocation returns the error
(with the sentinel cursor, so the loop's own cursor stays unchanged);
candidates after `c` are never acted on; and the side effects already applied
to `pre` remain in the trace — nothing is rolled back. -/
theorem C4_partial_failure_no_rollback (h : Housekeeping) (last lp : ID)
    (pre : List ClientInfo) (c : ClientInfo) (post : List ClientInfo) (e : Err)
    (hn : h.coordinator.newLocker deactivateCandidatesKey = none)
    (hl : h.coordinator.lockErr = none)
    (hf : (h.FindDeactivateCandidates h.clientDeactivationCandidateLimitPerProject
      h.projectFetchSize last).1 = (lp, pre ++ c :: post, none))
    (hpre : ∀ x ∈ pre, h.db.deactivate x = none)
    (hc : h.db.deactivate c = some e) :
    (h.deactivateCandidates last).1 = (DefaultProjectID, some e) ∧
    (h.deactivateCandidates last).2.filter Event.isDeact =
      (pre.map fun x => Event.deactivateClient x true) ++
        [Event.deactivateClient c false] := by
  have hf2 : (h.FindDeactivateCandidates h.clientDeactivationCandidateLimitPerProject
      h.projectFetchSize last).1.2.2 = none := by rw [hf]
  have hf1 : (h.FindDeactivateCandidates h.clientDeactivationCandidateLimitPerProject
      h.projectFetchSize last).1.2.1 = pre ++ c :: post := by rw [hf]
  have hpart := deactivateLoopBody_partial h.db pre c post e hpre hc
  have hd : (deactivateLoopBody h.db (h.FindDeactivateCandidates
      h.clientDeactivationCandidateLimitPerProject h.projectFetchSize
      last).1.2.1).2.1 = some e := by rw [hf1, hpart]
  constructor
  · rw [deact_act_fail h last e hn hl hf2 hd]
  · rw [deact_act_fail h last e hn hl hf2 hd]
    simp only [List.filter_append, find_clients_filter_deact,
      unlockEvents_filter_deact, hf1, hpart, deact_events_filter_self]
    simp [Event.isDeact]

theorem C4_partial_failure_no_rollback_witness :
    (hkDeactFail.deactivateCandidates "P9").1 = (DefaultProjectID, some "deactfail") ∧
    (hkDeactFail.deactivateCandidates "P9").2.filter Event.isDeact =
      (([cA1] : List ClientInfo).map fun x => Event.deactivateClient x true) ++
        [Event.deactivateClient cA2 false] :=
  C4_partial_failure_no_rollback hkDeactFail "P9" "B" [cA1] cA2 [cB1] "deactfail"
    (by decide) (by decide) (by decide) (by decide) (by decide)

/-- C10: whenever `deactivateCandidates` returns with nil error, the
deactivation action was applied (successfully) exactly once to every candidate
in the batch, in order; the accumulated `deactivatedCount` equals the batch
size; and therefore every success log line carries two equal numbers. -/
theorem C10_success_count_equals_batch (h : Housekeeping) (last lp : ID)
    (cands : List ClientInfo)
    (hf : (h.FindDeactivateCandidates h.clientDeactivationCandidateLimitPerProject
      h.projectFetchSize last).1 = (lp, cands, none))
    (hs : (h.deactivateCandidates last).1.2 = none) :
    (h.deactivateCandidates last).1 = (lp, none) ∧
    (h.deactivateCandidates last).2.filter Event.isDeact =
      (cands.map fun x => Event.deactivateClient x true) ∧
    (deactivateLoopBody h.db cands).1 = cands.length ∧
    (∀ a b, Event.logInfo a b ∈ (h.deactivateCandidates last).2 → a = b) := by
  have hf2 : (h.FindDeactivateCandidates h.clientDeactivationCandidateLimitPerProject
      h.projectFetchSize last).1.2.2 = none := by rw [hf]
  have hf1 : (h.FindDeactivateCandidates h.clientDeactivationCandidateLimitPerProject
      h.projectFetchSize last).1.2.1 = cands := by rw [hf]
  cases hn : h.coordinator.newLocker deactivateCandidatesKey with
  | some e => rw [deact_newLocker_fail h last e hn] at hs; simp at hs
  | none =>
  cases hl : h.coordinator.lockErr with
  | some e => rw [deact_lock_fail h last e hn hl] at hs; simp at hs
  | none =>
  cases hd : (deactivateLoopBody h.db (h.FindDeactivateCandidates
      h.clientDeactivationCandidateLimitPerProject h.projectFetchSize
      last).1.2.1).2.1 with
  | some e => rw [deact_act_fail h last e hn hl hf2 hd] at hs; simp at hs
  | none =>
  have hd' : (deactivateLoopBody h.db cands).2.1 = none := by rw [← hf1]; exact hd
  rcases hr : deactivateLoopBody h.db cands with ⟨n, err, evs⟩
  have herr : err = none := by rw [hr] at hd'; exact hd'
  subst herr
  obtain ⟨hlen, hevs⟩ := deactivateLoopBody_ok h.db cands n evs hr
  subst hlen hevs
  have hfst : (h.FindDeactivateCandidates h.clientDeactivationCandidateLimitPerProject
      h.projectFetchSize last).1.1 = lp := by rw [hf]
  refine ⟨?_, ?_, ?_, ?_⟩
  · rw [deact_ok h last hn hl hf2 hd, hfst]
  · rw [deact_ok h last hn hl hf2 hd]
    simp only [List.filter_append, find_clients_filter_deact,
      unlockEvents_filter_deact, logEvs_filter_deact, hf1, hr, deact_map_filter_self]
    simp [Event.isDeact]
  · rfl
  · intro a b hmem
    rw [deact_ok h last hn hl hf2 hd] at hmem
    simp only [List.append_assoc, List.mem_append] at hmem
    rcases hmem with hm | hm | hm | hm
    · simp at hm
    · have hcl := (FindDeactivateCandidates_trace_clean h
        h.clientDeactivationCandidateLimitPerProject h.projectFetchSize last
        (Event.logInfo a b) hm).2.2
      simp [Event.isLogInfo] at hcl
    · rw [hf1, hr] at hm
      obtain ⟨x, _, hx⟩ := List.mem_map.mp hm
      simp at hx
    · rcases hm with hm₁ | hm₁
      · rw [hf1, hr] at hm₁
        split at hm₁
        · simp only [List.mem_singleton, Event.logInfo.injEq] at hm₁
          rw [hm₁.1, hm₁.2]
        · simp at hm₁
      · cases hu : h.coordinator.unlockErr with
        | some e => rw [unlockEvents, hu] at hm₁; simp at hm₁
        | none => rw [unlockEvents, hu] at hm₁; simp at hm₁

theorem C10_success_count_equals_batch_witness :
    (hkOk.deactivateCandidates "P9").1 = ("B", none) ∧
    (hkOk.deactivateCandidates "P9").2.filter Event.isDeact =
      (([cA1, cA2, cB1] : List ClientInfo).map fun x =>
        Event.deactivateClient x true) ∧
    (deactivateLoopBody hkOk.db [cA1, cA2, cB1]).1 =
      ([cA1, cA2, cB1] : List ClientInfo).length ∧
    (∀ a b, Event.logInfo a b ∈ (hkOk.deactivateCandidates "P9").2 → a = b) :=
  C10_success_count_equals_batch hkOk "P9" "B" [cA1, cA2, cB1]
    (by decide) (by decide)
